import Mathlib

/-!
Shallow embedding of the Mental-Models constellation visualization
(src/js/constellation.js, src/js/main.js) and the id generator of the
markdown parser (src/js/parser.js), together with proofs settling the
frozen specification claims.

Conventions of the embedding:
- JavaScript numbers are modelled as rationals; machine floats are not
  needed because every claim is about exact thresholds, clamps and
  record bookkeeping, not rounding.
- The JavaScript `Map` used for the star and constellation registries is
  modelled as an association list with JS `Map.set` semantics: `set`
  overwrites the binding in place, keeping first-insertion order, and
  `get` returns the first (unique) binding.
- The Three.js raycaster is external library code; the click handler is
  therefore parameterised by the list of intersected scene nodes the
  raycaster returns, and the handler logic after that call is translated
  verbatim (ancestry walk, userData.name truthiness test, parent
  visibility test).
- Random star placement (radius and depth jitter) is nondeterministic
  host input that no claim mentions; positions are omitted from the
  entity record. All bookkeeping fields that claims touch (scale,
  emissive intensity, visibility, registries, selection, events, camera)
  are modelled exactly.
-/

namespace Constellation

/-- A parsed mental model record as produced by MentalModelsParser
(name, description, id derived from the name, category). -/
structure Model where
  name : String
  description : String
  id : String
  category : String
deriving DecidableEq, Repr

/-- One entry of the static category configuration table
(`this.categoryConfigs` in the ConstellationVisualization constructor):
a 24-bit colour and an anchor position. -/
structure CatConfig where
  color : Nat
  posX : Int
  posY : Int
  posZ : Int
deriving DecidableEq, Repr

/-- The static category configuration table from the constructor of
ConstellationVisualization (constellation.js lines 22-63). -/
def categoryConfigList : List (String × CatConfig) :=
  [ ("Economics and Strategy", ⟨0xff6b35, 0, 30, 0⟩),
    ("Human Nature and Judgment", ⟨0x9b59b6, -35, 0, 15⟩),
    ("Numeracy and Interpretation", ⟨0xe67e22, 35, 0, 15⟩),
    ("Thinking", ⟨0x3498db, 0, -30, 15⟩),
    ("Systems", ⟨0x2ecc71, -40, 15, -15⟩),
    ("Biological World", ⟨0x1abc9c, 40, 15, -15⟩),
    ("Physical World", ⟨0xe74c3c, 0, 35, -20⟩),
    ("Military and War", ⟨0xff0000, -30, -20, -15⟩),
    ("Political Failure", ⟨0xf39c12, 30, -20, -15⟩),
    ("Rule of Law", ⟨0xf1c40f, 0, 0, -30⟩) ]

/-- Association-list lookup with JavaScript `Map.get` semantics
(first, hence unique, binding wins). -/
def mapGet {α : Type} (k : String) : List (String × α) → Option α
  | [] => none
  | (k2, v) :: rest => if k2 = k then some v else mapGet k rest

/-- Association-list insert with JavaScript `Map.set` semantics:
an existing binding is overwritten in place (keeping first-insertion
iteration order), otherwise the new binding is appended. -/
def mapSet {α : Type} (k : String) (v : α) : List (String × α) → List (String × α)
  | [] => [(k, v)]
  | (k2, v2) :: rest =>
      if k2 = k then (k, v) :: rest else (k2, v2) :: mapSet k v rest

/-- Update the (unique) binding of a key in place, if present. -/
def mapUpdate {α : Type} (k : String) (f : α → α) : List (String × α) → List (String × α)
  | [] => []
  | (k2, v2) :: rest =>
      if k2 = k then (k2, f v2) :: rest else (k2, v2) :: mapUpdate k f rest

/-- Lookup of a category in the configuration table
(`this.categoryConfigs[category]` truthiness test). -/
def categoryConfigs (c : String) : Option CatConfig :=
  mapGet c categoryConfigList

/-! Id generation, from MentalModelsParser.generateId (parser.js):
lowercase the name, strip characters outside lowercase letters, digits
and whitespace, replace each whitespace run with a single hyphen, and
truncate to 30 characters. -/

/-- Whitespace as matched by the JavaScript regex class used in
generateId (space, tab, newline, carriage return, form feed,
vertical tab). -/
def jsWhitespace (c : Char) : Bool :=
  c = ' ' || c = '\t' || c = '\n' || c = '\r' || c = '\x0b' || c = '\x0c'

/-- Characters kept by the regex replace removing everything outside
lowercase a-z, digits and whitespace. -/
def jsKeepChar (c : Char) : Bool :=
  (('a' ≤ c && c ≤ 'z') || ('0' ≤ c && c ≤ '9') || jsWhitespace c)

/-- Replace every maximal whitespace run with a single hyphen; the flag
records whether the previous character belonged to a run already
represented by a hyphen. -/
def collapseWhitespace : Bool → List Char → List Char
  | _, [] => []
  | inRun, c :: rest =>
      if jsWhitespace c then
        if inRun then collapseWhitespace true rest
        else '-' :: collapseWhitespace true rest
      else c :: collapseWhitespace false rest

/-- MentalModelsParser.generateId: lowercase, strip, hyphenate
whitespace runs, truncate to 30 characters. -/
def generateId (name : String) : String :=
  String.mk
    (List.take 30
      (collapseWhitespace false
        (List.filter jsKeepChar (name.data.map Char.toLower))))

/-! The visualization state. -/

/-- Per-star mutable visual state plus its immutable model record.
`parentCategory` is the category under which the star mesh was added to
its constellation group (the scene-graph parent). Scale is uniform
because the source always calls scale.set with equal components. -/
structure Star where
  model : Model
  parentCategory : String
  color : Nat
  scale : ℚ
  emissiveIntensity : ℚ
deriving DecidableEq, Repr

/-- Per-constellation group state: the visibility flag toggled by
filterByCategory, the rotation advanced by the animation loop, and the
anchor position from the configuration table. -/
structure Cluster where
  visible : Bool
  rotY : ℚ
  posX : Int
  posY : Int
  posZ : Int
deriving DecidableEq, Repr

/-- The `this.controls` record created by createControls. -/
structure Controls where
  mouseX : ℚ
  mouseY : ℚ
  targetRotationX : ℚ
  targetRotationY : ℚ
  isMouseDown : Bool
deriving DecidableEq, Repr

/-- The ConstellationVisualization instance state: registries, selection,
emitted starSelected events (their detail payloads, in dispatch order),
camera, scene rotation, pointer bookkeeping, and the animation-frame
flag (`rafPending` is true whenever a requestAnimationFrame callback is
outstanding; `framesRendered` counts renderer.render calls). -/
structure Viz where
  stars : List (String × Star)
  constellations : List (String × Cluster)
  creations : List Model
  selectedStar : Option String
  events : List Model
  cameraX : ℚ
  cameraY : ℚ
  cameraZ : ℚ
  cameraAspect : ℚ
  isRotating : Bool
  rotationSpeed : ℚ
  sceneRotX : ℚ
  sceneRotY : ℚ
  mouseNdcX : ℚ
  mouseNdcY : ℚ
  controls : Controls
  rectLeft : ℚ
  rectTop : ℚ
  rectW : ℚ
  rectH : ℚ
  rafPending : Bool
  framesRendered : Nat
deriving DecidableEq, Repr

/-- A fresh star mesh for a model (createStar): baseline emissive
intensity 0.3, default scale 1, material colour from the category
configuration. -/
def mkStar (m : Model) (cat : String) (cfg : CatConfig) : Star :=
  { model := m, parentCategory := cat, color := cfg.color
    scale := 1, emissiveIntensity := 0.3 }

/-- A fresh constellation group for a category
(createCategoryConstellation): visible by default, rotation 0,
positioned at the configured anchor. -/
def mkCluster (cfg : CatConfig) : Cluster :=
  { visible := true, rotY := 0, posX := cfg.posX, posY := cfg.posY, posZ := cfg.posZ }

/-- createCategoryConstellation: for each model of the category, in
order, create a star, add it to the group (recorded in `creations`) and
register it in the id registry (`stars.set(model.id, star)`); then
register the group under the category. -/
def createCategoryConstellation (cat : String) (cfg : CatConfig)
    (models : List Model) (v : Viz) : Viz :=
  let v2 := models.foldl
    (fun acc m =>
      { acc with
        stars := mapSet m.id (mkStar m cat cfg) acc.stars
        creations := acc.creations ++ [m] })
    v
  { v2 with constellations := mapSet cat (mkCluster cfg) v2.constellations }

/-- createConstellations: iterate the parsed data
(`Object.entries(this.data)`) and build a constellation for every
category present in the static configuration table; other categories
are skipped silently. -/
def createConstellations (data : List (String × List Model)) (v : Viz) : Viz :=
  data.foldl
    (fun acc p =>
      match categoryConfigs p.1 with
      | some cfg => createCategoryConstellation p.1 cfg p.2 acc
      | none => acc)
    v

/-- The state right after the constructor ran createScene, createCamera
(position (0,0,50)), createControls and before createConstellations;
the animation loop has been armed by init. Rectangle and aspect are
host-supplied viewport geometry. -/
def initViz : Viz :=
  { stars := [], constellations := [], creations := []
    selectedStar := none, events := []
    cameraX := 0, cameraY := 0, cameraZ := 50, cameraAspect := 4/3
    isRotating := true, rotationSpeed := 0.001
    sceneRotX := 0, sceneRotY := 0
    mouseNdcX := 0, mouseNdcY := 0
    controls := { mouseX := 0, mouseY := 0, targetRotationX := 0,
                  targetRotationY := 0, isMouseDown := false }
    rectLeft := 0, rectTop := 0, rectW := 800, rectH := 600
    rafPending := true, framesRendered := 0 }

/-- Scene construction: createConstellations run on the fresh instance
state. -/
def build (data : List (String × List Model)) : Viz :=
  createConstellations data initViz

/-! Selection, highlighting, filtering. -/

/-- selectStar: revert the scale of the previously selected star, record
and enlarge (1.5x) the new one, and dispatch a starSelected event whose
detail is the userData (the model record) of the selected star. -/
def selectStar (v : Viz) (sid : String) : Viz :=
  let v1 :=
    match v.selectedStar with
    | some prev => { v with stars := mapUpdate prev (fun st => { st with scale := 1 }) v.stars }
    | none => v
  let v2 :=
    { v1 with
      selectedStar := some sid
      stars := mapUpdate sid (fun st => { st with scale := 1.5 }) v1.stars }
  { v2 with
    events := v2.events ++ (match mapGet sid v2.stars with
      | some st => [st.model]
      | none => []) }

/-- filterByCategory: set the visibility flag of every constellation
group to membership of its category in the given list. -/
def filterByCategory (visibleCategories : List String) (v : Viz) : Viz :=
  let cs := v.constellations.map
    (fun p => (p.1, { p.2 with visible := visibleCategories.contains p.1 }))
  { v with constellations := cs }

/-- highlightSearchResults: for every registered star, either raise the
emissive intensity to 0.8 and the scale to 1.3, or revert both to the
0.3 and 1 baselines, according to membership of its id in the given
list. -/
def highlightSearchResults (modelIds : List String) (v : Viz) : Viz :=
  let ss := v.stars.map
    (fun p =>
      if modelIds.contains p.1 then
        (p.1, { p.2 with emissiveIntensity := 0.8, scale := 1.3 })
      else
        (p.1, { p.2 with emissiveIntensity := 0.3, scale := 1 }))
  { v with stars := ss }

/-- resetHighlights: revert every registered star to baseline emissive
intensity and scale. -/
def resetHighlights (v : Viz) : Viz :=
  let ss := v.stars.map (fun p => (p.1, { p.2 with emissiveIntensity := 0.3, scale := 1 }))
  { v with stars := ss }

/-! Camera. -/

/-- onMouseWheel: adjust camera distance by deltaY * 0.05, clamped into
[20,100]. -/
def onMouseWheel (deltaY : ℚ) (v : Viz) : Viz :=
  let delta := deltaY * 0.05
  { v with cameraZ := max 20 (min 100 (v.cameraZ + delta)) }

/-- resetCamera: camera back to (0,0,50) and target rotations to 0. -/
def resetCamera (v : Viz) : Viz :=
  { v with
    cameraX := 0, cameraY := 0, cameraZ := 50
    controls := { v.controls with targetRotationX := 0, targetRotationY := 0 } }

/-- onWindowResize: recompute the camera projection parameters from the
current container geometry. -/
def onWindowResize (v : Viz) : Viz :=
  { v with cameraAspect := v.rectW / v.rectH }

/-- The camera inputs reachable states are built from: wheel events and
camera resets. -/
inductive CamOp where
  | wheel (deltaY : ℚ)
  | reset
deriving DecidableEq, Repr

/-- Apply a sequence of camera inputs. -/
def applyCamOps (ops : List CamOp) (v : Viz) : Viz :=
  ops.foldl
    (fun acc op =>
      match op with
      | CamOp.wheel d => onMouseWheel d acc
      | CamOp.reset => resetCamera acc)
    v

/-! Picking. The raycaster is Three.js library code, so the click
handler is parameterised by the list of intersected nodes it returns.
The scene graph built by the source is: scene root with lights, the
background star field and one group per constellation; each group
contains its star meshes; each star mesh contains a decorative glow
mesh. Only star meshes carry a model record in userData. -/

/-- A renderable node of the built scene, identified structurally.
Stars and glows are identified by the model id of the star mesh. -/
inductive SceneNode where
  | root
  | lights
  | starfield
  | clusterN (category : String)
  | starN (id : String)
  | glowN (id : String)
deriving DecidableEq, Repr

/-- The scene-graph parent of a node, as built by the source: the glow
is a child of its star, the star a child of its constellation group,
and groups, lights and star field are children of the scene. A star id
with no registry binding never occurs in a built scene; its parent is
mapped to none so that the ancestry walk stops there. -/
def nodeParent (v : Viz) : SceneNode → Option SceneNode
  | SceneNode.glowN id => some (SceneNode.starN id)
  | SceneNode.starN id =>
      match mapGet id v.stars with
      | some st => some (SceneNode.clusterN st.parentCategory)
      | none => none
  | SceneNode.clusterN _ => some SceneNode.root
  | SceneNode.starfield => some SceneNode.root
  | SceneNode.lights => some SceneNode.root
  | SceneNode.root => none

/-- The userData.name truthiness test of the click handler: only star
meshes carry userData with a name, and the empty string is falsy. -/
def nodeName (v : Viz) : SceneNode → Option String
  | SceneNode.starN id =>
      match mapGet id v.stars with
      | some st => if st.model.name = "" then none else some st.model.name
      | none => none
  | _ => none

/-- The visible flag of a node: constellation groups carry the flag set
by filterByCategory; every other node keeps the default. A group
missing from the registry never occurs in a built scene. -/
def nodeVisible (v : Viz) : SceneNode → Bool
  | SceneNode.clusterN c =>
      match mapGet c v.constellations with
      | some cl => cl.visible
      | none => false
  | _ => true

/-- The ancestry walk of onMouseClick: climb while the node has a
parent and no userData.name. Scene depth is at most 3, so fuel 4 is
exact. -/
def walkUp (v : Viz) : Nat → SceneNode → SceneNode
  | 0, n => n
  | fuel + 1, n =>
      if (nodeName v n).isSome then n
      else
        match nodeParent v n with
        | some p => walkUp v fuel p
        | none => n

/-- The node itself and its ancestors, in walk order (bounded by the
same fuel as the walk). -/
def selfAndAncestors (v : Viz) : Nat → SceneNode → List SceneNode
  | 0, n => [n]
  | fuel + 1, n =>
      n :: (match nodeParent v n with
            | some p => selfAndAncestors v fuel p
            | none => [])

/-- Whether some node on the ancestry chain (the node included) carries
a model record, in the userData.name truthiness sense of the source. -/
def hasModelAncestor (v : Viz) (n : SceneNode) : Bool :=
  (selfAndAncestors v 4 n).any (fun m => (nodeName v m).isSome)

/-- onMouseClick, after the raycast: take the nearest hit, walk the
ancestry to the entity-bearing node, and select it when it has a name
and its parent group is visible. -/
def onMouseClick (v : Viz) (hits : List SceneNode) : Viz :=
  match hits with
  | [] => v
  | h :: _ =>
      match walkUp v 4 h with
      | SceneNode.starN id =>
          match mapGet id v.stars with
          | some st =>
              if st.model.name != "" && nodeVisible v (SceneNode.clusterN st.parentCategory) then
                selectStar v id
              else v
          | none => v
      | _ => v

/-! Pointer events. The host browser delivers mousedown, mousemove and
mouseup to the handlers, and dispatches a click event after a
mousedown/mouseup pair on the canvas regardless of intermediate
movement; the click event is modelled with the raycast result at the
release position. -/

/-- onMouseDown. -/
def onMouseDown (v : Viz) : Viz :=
  { v with controls := { v.controls with isMouseDown := true } }

/-- onMouseUp. -/
def onMouseUp (v : Viz) : Viz :=
  { v with controls := { v.controls with isMouseDown := false } }

/-- onMouseMove: refresh the normalized device coordinates from the
canvas rectangle, rotate the scene by the per-sample displacement while
the button is held, and record the sample position. -/
def onMouseMove (cx cy : ℚ) (v : Viz) : Viz :=
  let v1 :=
    { v with
      mouseNdcX := ((cx - v.rectLeft) / v.rectW) * 2 - 1
      mouseNdcY := -(((cy - v.rectTop) / v.rectH)) * 2 + 1 }
  let v2 :=
    if v1.controls.isMouseDown then
      { v1 with
        sceneRotY := v1.sceneRotY + (cx - v1.controls.mouseX) * 0.005
        sceneRotX := v1.sceneRotX + (cy - v1.controls.mouseY) * 0.005 }
    else v1
  { v2 with controls := { v2.controls with mouseX := cx, mouseY := cy } }

/-- One pointer event as delivered by the host. -/
inductive PtrEvent where
  | down
  | up
  | move (cx cy : ℚ)
  | click (hits : List SceneNode)
deriving DecidableEq, Repr

/-- Motion events: everything except the click dispatch. -/
def PtrEvent.isMotion : PtrEvent → Bool
  | PtrEvent.click _ => false
  | _ => true

/-- Deliver one pointer event to its handler. -/
def dispatch (v : Viz) : PtrEvent → Viz
  | PtrEvent.down => onMouseDown v
  | PtrEvent.up => onMouseUp v
  | PtrEvent.move cx cy => onMouseMove cx cy v
  | PtrEvent.click hits => onMouseClick v hits

/-- Deliver a sequence of pointer events in order. -/
def processEvents (v : Viz) (l : List PtrEvent) : Viz :=
  l.foldl dispatch v

/-! Animation loop and disposal. -/

/-- One tick of animate: re-arm requestAnimationFrame unconditionally,
advance every constellation rotation by the fixed increment while
rotation is enabled, and render the frame. -/
def animate (v : Viz) : Viz :=
  let cs :=
    if v.isRotating then
      v.constellations.map (fun p => (p.1, { p.2 with rotY := p.2.rotY + v.rotationSpeed }))
    else v.constellations
  { v with rafPending := true, constellations := cs, framesRendered := v.framesRendered + 1 }

/-- dispose: release the renderer (external) and clear both registries.
No flag is set and no pending animation frame is cancelled. -/
def dispose (v : Viz) : Viz :=
  { v with stars := [], constellations := [] }

/-! Resize handling. Two listeners are registered on the window resize
event: the visualization registers onWindowResize directly
(constellation.js addEventListeners), and main.js registers a debounced
handler that clears and re-arms a 250ms timer, calling onWindowResize
when the timer fires. Both are modelled over a timeline of event
timestamps; `recomputes` counts onWindowResize invocations. -/

/-- Debounce bookkeeping: recompute count and the pending timer
deadline (wall-clock milliseconds), if a timer is armed. -/
structure ResizeState where
  recomputes : Nat
  pendingDeadline : Option ℤ
deriving DecidableEq, Repr

/-- Let an armed debounce timer fire if its deadline has passed by time
t. -/
def fireIfDue (t : ℤ) (s : ResizeState) : ResizeState :=
  match s.pendingDeadline with
  | some d => if d ≤ t then { recomputes := s.recomputes + 1, pendingDeadline := none } else s
  | none => s

/-- Handle one resize event at time t: any expired timer fires first;
then the direct listener recomputes immediately and the debounced
listener clears and re-arms the 250ms timer. -/
def handleResize (t : ℤ) (s : ResizeState) : ResizeState :=
  let s1 := fireIfDue t s
  { recomputes := s1.recomputes + 1, pendingDeadline := some (t + 250) }

/-- Run a timeline of resize events (timestamps in delivery order) and
then let any still-armed timer fire. -/
def runResizes (ts : List ℤ) : ResizeState :=
  let s := ts.foldl (fun s t => handleResize t s) { recomputes := 0, pendingDeadline := none }
  match s.pendingDeadline with
  | some _ => { recomputes := s.recomputes + 1, pendingDeadline := none }
  | none => s

/-- True when every pair of consecutive timestamps is less than the
250ms debounce interval apart, so the debounce timer never fires inside
the burst. -/
def gapsBelowDebounce : List ℤ → Bool
  | t1 :: t2 :: rest => (decide (t2 < t1 + 250)) && gapsBelowDebounce (t2 :: rest)
  | _ => true

/-! Concrete sample data used by witnesses and counterexamples. -/

/-- Sample model in a configured category. -/
def mOpp : Model :=
  { name := "Opportunity cost"
    description := "The value of what you have to give up to choose something else."
    id := generateId "Opportunity cost"
    category := "Economics and Strategy" }

/-- Second sample model in the same configured category. -/
def mCre : Model :=
  { name := "Creative destruction"
    description := "A theory of economic innovation where new production units replace outdated ones."
    id := generateId "Creative destruction"
    category := "Economics and Strategy" }

/-- Sample model in another configured category. -/
def mTru : Model :=
  { name := "Trust"
    description := "A fundamental part of human nature."
    id := generateId "Trust"
    category := "Thinking" }

/-- Sample parsed data: two configured categories. -/
def sampleData : List (String × List Model) :=
  [("Economics and Strategy", [mOpp, mCre]), ("Thinking", [mTru])]

/-- The built sample scene. -/
def sampleViz : Viz :=
  build sampleData

/-- Two distinct names that the id generator collapses to the same id. -/
def mDup1 : Model :=
  { name := "Trust!"
    description := "First duplicate."
    id := generateId "Trust!"
    category := "Thinking" }

/-- Second model whose name differs but whose generated id collides. -/
def mDup2 : Model :=
  { name := "Trust?"
    description := "Second duplicate."
    id := generateId "Trust?"
    category := "Thinking" }

/-- Input data containing the id collision. -/
def dupData : List (String × List Model) :=
  [("Thinking", [mDup1, mDup2])]

/-- Input data whose single category is absent from the configuration
table. -/
def unconfiguredData : List (String × List Model) :=
  [("Cooking", [{ name := "Mise en place"
                  description := "Prepare everything first."
                  id := generateId "Mise en place"
                  category := "Cooking" }])]

/-- Sample model in an unconfigured category. -/
def mMise : Model :=
  { name := "Mise en place"
    description := "Prepare everything first."
    id := generateId "Mise en place"
    category := "Cooking" }

/-- Sample data mixing two configured categories and one category that
the configuration table does not know. -/
def mixedData : List (String × List Model) :=
  [("Economics and Strategy", [mOpp, mCre]), ("Thinking", [mTru]), ("Cooking", [mMise])]

/-- A drag gesture: hover to (110,100), press, drag 10px to (120,100)
(well above the 5px threshold the specification describes), release,
followed by the click the browser dispatches at the release position,
whose raycast hits the glow of the sample star. -/
def dragGesture : List PtrEvent :=
  [PtrEvent.move 110 100, PtrEvent.down, PtrEvent.move 120 100, PtrEvent.up,
    PtrEvent.click [SceneNode.glowN "opportunity-cost"]]

/-- Ten resize timestamps within 50ms, far inside the 250ms debounce
window. -/
def burstTimes : List ℤ :=
  [0, 5, 10, 15, 20, 25, 30, 35, 40, 45]

/-- The sample scene with every category except Thinking filtered out. -/
def filteredSample : Viz :=
  filterByCategory ["Thinking"] sampleViz

/-- The star record of the sample star, as created by the builder. -/
def wStar : Star :=
  mkStar mOpp "Economics and Strategy" ⟨0xff6b35, 0, 30, 0⟩

/-- The cluster record of the Economics and Strategy group after it was
filtered out. -/
def wCluster : Cluster :=
  { visible := false, rotY := 0, posX := 0, posY := 30, posZ := 0 }

/-- The star record of the Thinking sample star while highlighted. -/
def hlStar : Star :=
  { model := mTru, parentCategory := "Thinking", color := 0x3498db
    scale := 1.3, emissiveIntensity := 0.8 }

/-- The per-binding effect of highlightSearchResults, with the boolean
membership test exposed as a match for smooth rewriting. -/
def highlightFun (ids : List String) (p : String × Star) : String × Star :=
  match ids.contains p.1 with
  | true => (p.1, { p.2 with emissiveIntensity := 0.8, scale := 1.3 })
  | false => (p.1, { p.2 with emissiveIntensity := 0.3, scale := 1 })

/-! Characterization helpers for scene construction: the traversal
order of created entities and the per-category construction units. -/

/-- One unit of scene construction: a model together with the category
and configuration of the constellation group it is created under. -/
structure BuildEntry where
  cat : String
  cfg : CatConfig
  m : Model
deriving DecidableEq, Repr

/-- All construction units of an input mapping, in traversal order:
categories in input order, models of a configured category in input
order, unconfigured categories contributing nothing. -/
def buildEntries : List (String × List Model) → List BuildEntry
  | [] => []
  | p :: rest =>
      (match categoryConfigs p.1 with
       | some cfg => p.2.map (fun m => ⟨p.1, cfg, m⟩)
       | none => []) ++ buildEntries rest

/-- The configured categories of an input mapping, in input order,
paired with their configurations. -/
def catEntries : List (String × List Model) → List (String × CatConfig)
  | [] => []
  | p :: rest =>
      (match categoryConfigs p.1 with
       | some cfg => [(p.1, cfg)]
       | none => []) ++ catEntries rest

/-- Registry effect of creating one star. -/
def starStep (st : List (String × Star)) (e : BuildEntry) : List (String × Star) :=
  mapSet e.m.id (mkStar e.m e.cat e.cfg) st

/-- Registry effect of creating one constellation group. -/
def clusterStep (cs : List (String × Cluster)) (q : String × CatConfig) :
    List (String × Cluster) :=
  mapSet q.1 (mkCluster q.2) cs

theorem mapGet_mapSet {α : Type} (k k2 : String) (x : α) (l : List (String × α)) :
    mapGet k (mapSet k2 x l) = if k2 = k then some x else mapGet k l := by
  induction l with
  | nil => simp [mapSet, mapGet]
  | cons hd tl ih =>
      obtain ⟨k3, v3⟩ := hd
      by_cases h32 : k3 = k2
      · subst h32
        by_cases h3k : k3 = k <;> simp [mapSet, mapGet, h3k]
      · by_cases h3k : k3 = k
        · subst h3k
          simp [mapSet, mapGet, h32, Ne.symm h32]
        · simp [mapSet, mapGet, h32, h3k, ih]

theorem mapGet_mapUpdate {α : Type} (k k2 : String) (f : α → α) (l : List (String × α)) :
    mapGet k (mapUpdate k2 f l) =
      if k2 = k then (mapGet k l).map f else mapGet k l := by
  induction l with
  | nil => simp [mapUpdate, mapGet]
  | cons hd tl ih =>
      obtain ⟨k3, v3⟩ := hd
      by_cases h32 : k3 = k2
      · subst h32
        by_cases h3k : k3 = k <;> simp [mapUpdate, mapGet, h3k]
      · by_cases h3k : k3 = k
        · subst h3k
          simp [mapUpdate, mapGet, h32, Ne.symm h32]
        · simp [mapUpdate, mapGet, h32, h3k, ih]

theorem mapSet_of_not_mem {α : Type} (k : String) (x : α) (l : List (String × α))
    (h : k ∉ l.map Prod.fst) :
    mapSet k x l = l ++ [(k, x)] := by
  induction l with
  | nil => simp [mapSet]
  | cons hd tl ih =>
      obtain ⟨k3, v3⟩ := hd
      simp only [List.map_cons, List.mem_cons] at h
      push_neg at h
      simp [mapSet, Ne.symm h.1, ih h.2]

theorem mapGet_of_not_mem {α : Type} (k : String) (l : List (String × α))
    (h : k ∉ l.map Prod.fst) :
    mapGet k l = none := by
  induction l with
  | nil => rfl
  | cons hd tl ih =>
      obtain ⟨k3, v3⟩ := hd
      simp only [List.map_cons, List.mem_cons] at h
      push_neg at h
      simp [mapGet, Ne.symm h.1, ih h.2]

theorem createCategoryConstellation_eq (cat : String) (cfg : CatConfig)
    (models : List Model) (v : Viz) :
    createCategoryConstellation cat cfg models v =
      { v with
        stars := (models.map (fun m => (⟨cat, cfg, m⟩ : BuildEntry))).foldl starStep v.stars
        creations := v.creations ++ models
        constellations := mapSet cat (mkCluster cfg) v.constellations } := by
  suffices h : ∀ (ms : List Model) (w : Viz),
      ms.foldl
        (fun acc m =>
          { acc with
            stars := mapSet m.id (mkStar m cat cfg) acc.stars
            creations := acc.creations ++ [m] })
        w
      = { w with
          stars := (ms.map (fun m => (⟨cat, cfg, m⟩ : BuildEntry))).foldl starStep w.stars
          creations := w.creations ++ ms } by
    unfold createCategoryConstellation
    rw [h models v]
  intro ms
  induction ms with
  | nil => intro w; simp
  | cons m rest ih =>
      intro w
      simp only [List.foldl_cons, List.map_cons]
      rw [ih]
      simp [starStep, List.append_assoc]

theorem createConstellations_eq (data : List (String × List Model)) (v : Viz) :
    createConstellations data v =
      { v with
        stars := (buildEntries data).foldl starStep v.stars
        creations := v.creations ++ (buildEntries data).map BuildEntry.m
        constellations := (catEntries data).foldl clusterStep v.constellations } := by
  induction data generalizing v with
  | nil => simp [createConstellations, buildEntries, catEntries]
  | cons p rest ih =>
      obtain ⟨cat, models⟩ := p
      unfold createConstellations
      simp only [List.foldl_cons]
      cases hc : categoryConfigs cat with
      | none =>
          show createConstellations rest v = _
          rw [ih]
          simp [buildEntries, catEntries, hc]
      | some cfg =>
          show createConstellations rest (createCategoryConstellation cat cfg models v) = _
          rw [ih, createCategoryConstellation_eq]
          simp only [buildEntries, catEntries, hc]
          have hid : (BuildEntry.m ∘ fun m => (⟨cat, cfg, m⟩ : BuildEntry)) = id := rfl
          simp [List.foldl_append, List.map_append, List.map_map,
            List.append_assoc, clusterStep, hid]

theorem build_stars (data : List (String × List Model)) :
    (build data).stars = (buildEntries data).foldl starStep [] := by
  rw [build, createConstellations_eq]
  rfl

theorem build_creations (data : List (String × List Model)) :
    (build data).creations = (buildEntries data).map BuildEntry.m := by
  rw [build, createConstellations_eq]
  rfl

theorem build_constellations (data : List (String × List Model)) :
    (build data).constellations = (catEntries data).foldl clusterStep [] := by
  rw [build, createConstellations_eq]
  rfl

theorem build_cameraZ (data : List (String × List Model)) :
    (build data).cameraZ = 50 := by
  rw [build, createConstellations_eq]
  rfl

theorem mapGet_foldl_starStep (l : List BuildEntry) (st : List (String × Star)) (k : String) :
    mapGet k (l.foldl starStep st) =
      match l.reverse.find? (fun e => e.m.id == k) with
      | some e => some (mkStar e.m e.cat e.cfg)
      | none => mapGet k st := by
  induction l generalizing st with
  | nil => simp
  | cons e rest ih =>
      simp only [List.foldl_cons, List.reverse_cons, List.find?_append]
      rw [ih]
      cases hfind : rest.reverse.find? (fun x => x.m.id == k) with
      | some x => simp [hfind, Option.or]
      | none =>
          simp only [hfind, Option.or]
          rw [starStep, mapGet_mapSet]
          by_cases hk : e.m.id = k
          · have hb : (e.m.id == k) = true := by simp [hk]
            simp [List.find?, hb, hk]
          · have hb : (e.m.id == k) = false := by simp [hk]
            simp [List.find?, hb, hk]

theorem find?_eq_some_of_nodup_ids (l : List BuildEntry) (e : BuildEntry)
    (hn : (l.map (fun x => x.m.id)).Nodup) (he : e ∈ l) :
    l.find? (fun x => x.m.id == e.m.id) = some e := by
  induction l with
  | nil => cases he
  | cons x rest ih =>
      simp only [List.map_cons, List.nodup_cons] at hn
      rcases List.mem_cons.mp he with hex | her
      · subst hex
        simp [List.find?]
      · have hne : x.m.id ≠ e.m.id := by
          intro hcontra
          exact hn.1 (hcontra ▸ List.mem_map_of_mem (fun y => y.m.id) her)
        have hb : (x.m.id == e.m.id) = false := by simp [hne]
        simp only [List.find?, hb]
        exact ih hn.2 her

theorem filter_id_eq_singleton (l : List Model) (m : Model)
    (hm : m ∈ l) (hn : (l.map Model.id).Nodup) :
    l.filter (fun x => x.id == m.id) = [m] := by
  induction l with
  | nil => cases hm
  | cons x rest ih =>
      simp only [List.map_cons, List.nodup_cons] at hn
      rcases List.mem_cons.mp hm with hex | hmr
      · subst hex
        have hrest : rest.filter (fun y => y.id == m.id) = [] := by
          rw [List.filter_eq_nil_iff]
          intro a ha
          simp only [beq_iff_eq]
          intro hcontra
          exact hn.1 (hcontra ▸ List.mem_map_of_mem Model.id ha)
        have hb : (m.id == m.id) = true := by simp
        simp [List.filter, hb, hrest]
      · have hne : x.id ≠ m.id := by
          intro hcontra
          exact hn.1 (hcontra ▸ List.mem_map_of_mem Model.id hmr)
        have hb : (x.id == m.id) = false := by simp [hne]
        simp only [List.filter, hb]
        exact ih hmr hn.2

theorem mem_buildEntries (data : List (String × List Model)) (cat : String)
    (models : List Model) (cfg : CatConfig) (m : Model)
    (hmem : (cat, models) ∈ data) (hcfg : categoryConfigs cat = some cfg)
    (hm : m ∈ models) :
    (⟨cat, cfg, m⟩ : BuildEntry) ∈ buildEntries data := by
  induction data with
  | nil => cases hmem
  | cons p rest ih =>
      rcases List.mem_cons.mp hmem with hp | hr
      · subst hp
        simp only [buildEntries, hcfg, List.mem_append]
        exact Or.inl (List.mem_map_of_mem _ hm)
      · simp only [buildEntries, List.mem_append]
        exact Or.inr (ih hr)

theorem catEntries_length (data : List (String × List Model)) :
    (catEntries data).length =
      (data.filter (fun p => (categoryConfigs p.1).isSome)).length := by
  induction data with
  | nil => rfl
  | cons p rest ih =>
      cases hc : categoryConfigs p.1 with
      | none => simp [catEntries, List.filter, hc, ih]
      | some cfg => simp [catEntries, List.filter, hc, ih]

theorem catEntries_configured (data : List (String × List Model)) (q : String × CatConfig)
    (hq : q ∈ catEntries data) : categoryConfigs q.1 = some q.2 := by
  induction data with
  | nil => cases hq
  | cons p rest ih =>
      simp only [catEntries] at hq
      cases hc : categoryConfigs p.1 with
      | none =>
          rw [hc] at hq
          simp at hq
          exact ih hq
      | some cfg =>
          rw [hc] at hq
          simp only [List.singleton_append, List.mem_cons] at hq
          rcases hq with hq | hq
          · subst hq; exact hc
          · exact ih hq

theorem catEntries_keys_sublist (data : List (String × List Model)) :
    ((catEntries data).map Prod.fst).Sublist (data.map Prod.fst) := by
  induction data with
  | nil => simp [catEntries]
  | cons p rest ih =>
      cases hc : categoryConfigs p.1 with
      | none =>
          simp only [catEntries, hc, List.nil_append, List.map_cons]
          exact ih.cons p.1
      | some cfg =>
          simp only [catEntries, hc, List.singleton_append, List.map_cons]
          exact ih.cons₂ p.1

theorem mapGet_foldl_clusterStep_of_not_mem (l : List (String × CatConfig))
    (cs : List (String × Cluster)) (c : String) (hc : c ∉ l.map Prod.fst) :
    mapGet c (l.foldl clusterStep cs) = mapGet c cs := by
  induction l generalizing cs with
  | nil => rfl
  | cons q rest ih =>
      simp only [List.map_cons, List.mem_cons] at hc
      push_neg at hc
      simp only [List.foldl_cons]
      rw [ih _ hc.2, clusterStep, mapGet_mapSet, if_neg (Ne.symm hc.1)]

theorem foldl_clusterStep_nodup (l : List (String × CatConfig)) (cs : List (String × Cluster))
    (hfresh : ∀ q ∈ l, q.1 ∉ cs.map Prod.fst) (hn : (l.map Prod.fst).Nodup) :
    l.foldl clusterStep cs = cs ++ l.map (fun q => (q.1, mkCluster q.2)) := by
  induction l generalizing cs with
  | nil => simp
  | cons q rest ih =>
      simp only [List.map_cons, List.nodup_cons] at hn
      simp only [List.foldl_cons, List.map_cons]
      rw [clusterStep, mapSet_of_not_mem _ _ _ (hfresh q (List.mem_cons_self q rest))]
      rw [ih (cs ++ [(q.1, mkCluster q.2)])]
      · simp
      · intro r hr
        simp only [List.map_append, List.mem_append]
        push_neg
        refine ⟨hfresh r (List.mem_cons_of_mem q hr), ?_⟩
        intro hcontra
        simp only [List.map_cons, List.map_nil, List.mem_singleton] at hcontra
        exact hn.1 (hcontra ▸ List.mem_map_of_mem Prod.fst hr)
      · exact hn.2

theorem highlightSearchResults_stars (ids : List String) (v : Viz) :
    (highlightSearchResults ids v).stars = v.stars.map (highlightFun ids) := by
  show v.stars.map _ = v.stars.map _
  apply List.map_congr_left
  intro p _
  cases hb : ids.contains p.1 <;> simp only [highlightFun, hb] <;> simp

theorem mapGet_map_highlightFun (ids : List String) (l : List (String × Star)) (k : String) :
    mapGet k (l.map (highlightFun ids)) =
      (mapGet k l).map
        (fun st =>
          match ids.contains k with
          | true => { st with emissiveIntensity := 0.8, scale := 1.3 }
          | false => { st with emissiveIntensity := 0.3, scale := 1 }) := by
  induction l with
  | nil => rfl
  | cons p rest ih =>
      obtain ⟨k2, st⟩ := p
      simp only [List.map_cons]
      by_cases h2k : k2 = k
      · subst h2k
        cases hc : ids.contains k2 <;>
          simp only [highlightFun, hc, mapGet, if_pos rfl, ite_true, if_true,
            Option.map_some']
      · cases hc : ids.contains k2 <;>
          simp only [highlightFun, hc, mapGet, if_neg h2k] <;> exact ih

theorem map_highlightFun_compose (ids1 ids2 : List String) (l : List (String × Star)) :
    (l.map (highlightFun ids1)).map (highlightFun ids2) = l.map (highlightFun ids2) := by
  induction l with
  | nil => rfl
  | cons p rest ih =>
      obtain ⟨k2, st⟩ := p
      simp only [List.map_cons, ih]
      cases h1 : ids1.contains k2 <;> cases h2 : ids2.contains k2 <;>
        simp only [highlightFun, h1, h2]

theorem highlight_overwrites (ids1 ids2 : List String) (v : Viz) :
    highlightSearchResults ids2 (highlightSearchResults ids1 v) =
      highlightSearchResults ids2 v := by
  have hstars : (highlightSearchResults ids2 (highlightSearchResults ids1 v)).stars
      = (highlightSearchResults ids2 v).stars := by
    rw [highlightSearchResults_stars, highlightSearchResults_stars,
      highlightSearchResults_stars, map_highlightFun_compose]
  show Viz.mk _ _ _ _ _ _ _ _ _ _ _ _ _ _ _ _ _ _ _ _ _ _ = Viz.mk _ _ _ _ _ _ _ _ _ _ _ _ _ _ _ _ _ _ _ _ _ _
  rw [Viz.mk.injEq]
  exact ⟨hstars, rfl, rfl, rfl, rfl, rfl, rfl, rfl, rfl, rfl, rfl, rfl, rfl, rfl,
    rfl, rfl, rfl, rfl, rfl, rfl, rfl, rfl⟩

theorem selectStar_spec (v : Viz) (sid : String) (st : Star)
    (h : mapGet sid v.stars = some st) :
    (selectStar v sid).selectedStar = some sid
    ∧ mapGet sid (selectStar v sid).stars = some { st with scale := 1.5 }
    ∧ (selectStar v sid).events = v.events ++ [st.model]
    ∧ (∀ k, k ≠ sid →
        mapGet k (selectStar v sid).stars =
          (if v.selectedStar = some k then
            (mapGet k v.stars).map (fun x => { x with scale := 1 })
          else mapGet k v.stars))
    ∧ (selectStar v sid).constellations = v.constellations := by
  cases hsel : v.selectedStar with
  | none =>
      have hget : mapGet sid (mapUpdate sid (fun x => { x with scale := (1.5 : ℚ) }) v.stars)
          = some { st with scale := 1.5 } := by
        rw [mapGet_mapUpdate, if_pos rfl, h]
        rfl
      have heq : selectStar v sid =
          { v with
            selectedStar := some sid
            stars := mapUpdate sid (fun x => { x with scale := 1.5 }) v.stars
            events := v.events ++ [st.model] } := by
        simp only [selectStar, hsel, hget]
      rw [heq]
      refine ⟨rfl, hget, rfl, ?_, rfl⟩
      intro k hk
      show mapGet k (mapUpdate sid _ v.stars) = _
      rw [mapGet_mapUpdate, if_neg (fun hc => hk hc.symm)]
      simp
  | some prev =>
      by_cases hp : prev = sid
      · subst hp
        have hget1 : mapGet prev (mapUpdate prev (fun x => { x with scale := (1 : ℚ) }) v.stars)
            = some { st with scale := 1 } := by
          rw [mapGet_mapUpdate, if_pos rfl, h]
          rfl
        have hget : mapGet prev (mapUpdate prev (fun x => { x with scale := (1.5 : ℚ) })
            (mapUpdate prev (fun x => { x with scale := (1 : ℚ) }) v.stars))
            = some { st with scale := 1.5 } := by
          rw [mapGet_mapUpdate, if_pos rfl, hget1]
          rfl
        have heq : selectStar v prev =
            { v with
              selectedStar := some prev
              stars := mapUpdate prev (fun x => { x with scale := 1.5 })
                (mapUpdate prev (fun x => { x with scale := 1 }) v.stars)
              events := v.events ++ [st.model] } := by
          simp only [selectStar, hsel, hget]
        rw [heq]
        refine ⟨rfl, hget, rfl, ?_, rfl⟩
        intro k hk
        show mapGet k (mapUpdate prev _ (mapUpdate prev _ v.stars)) = _
        rw [mapGet_mapUpdate, if_neg (fun hc => hk hc.symm),
          mapGet_mapUpdate, if_neg (fun hc => hk hc.symm)]
        simp only [Option.some.injEq]
        rw [if_neg (fun hc => hk hc.symm)]
      · have hgetp : mapGet sid (mapUpdate prev (fun x => { x with scale := (1 : ℚ) }) v.stars)
            = some st := by
          rw [mapGet_mapUpdate, if_neg hp, h]
        have hget : mapGet sid (mapUpdate sid (fun x => { x with scale := (1.5 : ℚ) })
            (mapUpdate prev (fun x => { x with scale := (1 : ℚ) }) v.stars))
            = some { st with scale := 1.5 } := by
          rw [mapGet_mapUpdate, if_pos rfl, hgetp]
          rfl
        have heq : selectStar v sid =
            { v with
              selectedStar := some sid
              stars := mapUpdate sid (fun x => { x with scale := 1.5 })
                (mapUpdate prev (fun x => { x with scale := 1 }) v.stars)
              events := v.events ++ [st.model] } := by
          simp only [selectStar, hsel, hget]
        rw [heq]
        refine ⟨rfl, hget, rfl, ?_, rfl⟩
        intro k hk
        show mapGet k (mapUpdate sid _ (mapUpdate prev _ v.stars)) = _
        rw [mapGet_mapUpdate, if_neg (fun hc => hk hc.symm), mapGet_mapUpdate]
        simp only [Option.some.injEq]

theorem walkUp_mem_selfAndAncestors (v : Viz) (fuel : Nat) (n : SceneNode) :
    walkUp v fuel n ∈ selfAndAncestors v fuel n := by
  induction fuel generalizing n with
  | zero => simp [walkUp, selfAndAncestors]
  | succ f ih =>
      by_cases hname : (nodeName v n).isSome
      · simp [walkUp, selfAndAncestors, hname]
      · cases hpar : nodeParent v n with
        | none => simp [walkUp, selfAndAncestors, hname, hpar]
        | some p =>
            simp only [walkUp, selfAndAncestors, hname, hpar, if_false,
              Bool.false_eq_true, List.mem_cons]
            right
            exact ih p

theorem nodeParent_congr (v1 v2 : Viz) (h : v1.stars = v2.stars) (n : SceneNode) :
    nodeParent v1 n = nodeParent v2 n := by
  cases n <;> simp [nodeParent, h]

theorem nodeName_congr (v1 v2 : Viz) (h : v1.stars = v2.stars) (n : SceneNode) :
    nodeName v1 n = nodeName v2 n := by
  cases n <;> simp [nodeName, h]

theorem nodeVisible_congr (v1 v2 : Viz) (h : v1.constellations = v2.constellations)
    (n : SceneNode) : nodeVisible v1 n = nodeVisible v2 n := by
  cases n <;> simp [nodeVisible, h]

theorem walkUp_congr (v1 v2 : Viz) (h : v1.stars = v2.stars) (fuel : Nat) (n : SceneNode) :
    walkUp v1 fuel n = walkUp v2 fuel n := by
  induction fuel generalizing n with
  | zero => rfl
  | succ f ih =>
      simp only [walkUp, nodeName_congr v1 v2 h, nodeParent_congr v1 v2 h]
      cases (nodeName v2 n).isSome
      · cases nodeParent v2 n <;> simp [ih]
      · simp

theorem selectStar_congr (v1 v2 : Viz) (sid : String)
    (h1 : v1.stars = v2.stars) (h2 : v1.selectedStar = v2.selectedStar)
    (h3 : v1.events = v2.events) :
    (selectStar v1 sid).stars = (selectStar v2 sid).stars
    ∧ (selectStar v1 sid).selectedStar = (selectStar v2 sid).selectedStar
    ∧ (selectStar v1 sid).events = (selectStar v2 sid).events := by
  cases hsel : v2.selectedStar with
  | none =>
      have hsel1 : v1.selectedStar = none := h2.trans hsel
      refine ⟨?_, ?_, ?_⟩ <;> simp only [selectStar, hsel, hsel1, h1, h3]
  | some prev =>
      have hsel1 : v1.selectedStar = some prev := h2.trans hsel
      refine ⟨?_, ?_, ?_⟩ <;> simp only [selectStar, hsel, hsel1, h1, h3]

theorem onMouseClick_congr (v1 v2 : Viz) (hits : List SceneNode)
    (h1 : v1.stars = v2.stars) (h2 : v1.constellations = v2.constellations)
    (h3 : v1.selectedStar = v2.selectedStar) (h4 : v1.events = v2.events) :
    (onMouseClick v1 hits).stars = (onMouseClick v2 hits).stars
    ∧ (onMouseClick v1 hits).selectedStar = (onMouseClick v2 hits).selectedStar
    ∧ (onMouseClick v1 hits).events = (onMouseClick v2 hits).events := by
  cases hits with
  | nil => exact ⟨h1, h3, h4⟩
  | cons h rest =>
      have hw12 : walkUp v1 4 h = walkUp v2 4 h := walkUp_congr v1 v2 h1 4 h
      simp only [onMouseClick, hw12]
      cases hw : walkUp v2 4 h <;> dsimp only
      case starN id =>
        rw [h1]
        cases hm : mapGet id v2.stars <;> dsimp only
        case none => exact ⟨h1, h3, h4⟩
        case some st =>
          rw [nodeVisible_congr v1 v2 h2]
          cases hcond : (st.model.name != ""
              && nodeVisible v2 (SceneNode.clusterN st.parentCategory))
          · simp only [Bool.false_eq_true, if_false, ite_false]
            exact ⟨h1, h3, h4⟩
          · simp only [eq_self_iff_true, if_true, ite_true]
            exact selectStar_congr v1 v2 id h1 h3 h4
      case root => exact ⟨h1, h3, h4⟩
      case lights => exact ⟨h1, h3, h4⟩
      case starfield => exact ⟨h1, h3, h4⟩
      case clusterN c => exact ⟨h1, h3, h4⟩
      case glowN id => exact ⟨h1, h3, h4⟩

theorem motion_preserves (l : List PtrEvent) (hl : l.all PtrEvent.isMotion = true) (v : Viz) :
    (processEvents v l).stars = v.stars
    ∧ (processEvents v l).constellations = v.constellations
    ∧ (processEvents v l).selectedStar = v.selectedStar
    ∧ (processEvents v l).events = v.events := by
  induction l generalizing v with
  | nil => exact ⟨rfl, rfl, rfl, rfl⟩
  | cons e rest ih =>
      simp only [List.all_cons, Bool.and_eq_true] at hl
      have hstep : (dispatch v e).stars = v.stars
          ∧ (dispatch v e).constellations = v.constellations
          ∧ (dispatch v e).selectedStar = v.selectedStar
          ∧ (dispatch v e).events = v.events := by
        cases e with
        | down => exact ⟨rfl, rfl, rfl, rfl⟩
        | up => exact ⟨rfl, rfl, rfl, rfl⟩
        | move cx cy =>
            refine ⟨?_, ?_, ?_, ?_⟩ <;>
              simp only [dispatch, onMouseMove] <;>
              split <;> rfl
        | click hits => simp [PtrEvent.isMotion] at hl
      have hrest := ih hl.2 (dispatch v e)
      exact ⟨hrest.1.trans hstep.1, hrest.2.1.trans hstep.2.1,
        hrest.2.2.1.trans hstep.2.2.1, hrest.2.2.2.trans hstep.2.2.2⟩

theorem processEvents_append (v : Viz) (l1 l2 : List PtrEvent) :
    processEvents v (l1 ++ l2) = processEvents (processEvents v l1) l2 :=
  List.foldl_append dispatch v l1 l2

theorem camOps_bounds (ops : List CamOp) (v : Viz)
    (hlo : 20 ≤ v.cameraZ) (hhi : v.cameraZ ≤ 100) :
    20 ≤ (applyCamOps ops v).cameraZ ∧ (applyCamOps ops v).cameraZ ≤ 100 := by
  induction ops generalizing v with
  | nil => exact ⟨hlo, hhi⟩
  | cons op rest ih =>
      cases op with
      | wheel d =>
          apply ih
          · exact le_max_left 20 _
          · exact max_le (by norm_num) (min_le_left 100 _)
      | reset =>
          apply ih <;> norm_num [resetCamera]

theorem handleResize_burst (rest : List ℤ) (t0 : ℤ) (n : Nat)
    (hchain : gapsBelowDebounce (t0 :: rest) = true) :
    ∃ tl : ℤ,
      rest.foldl (fun s t => handleResize t s)
        { recomputes := n, pendingDeadline := some (t0 + 250) }
      = { recomputes := n + rest.length, pendingDeadline := some (tl + 250) } := by
  induction rest generalizing t0 n with
  | nil => exact ⟨t0, by simp⟩
  | cons t1 rest2 ih =>
      simp only [gapsBelowDebounce, Bool.and_eq_true, decide_eq_true_eq] at hchain
      have hrel : t1 < t0 + 250 := hchain.1
      have hchain2 : gapsBelowDebounce (t1 :: rest2) = true := hchain.2
      have hstep : handleResize t1
          ({ recomputes := n, pendingDeadline := some (t0 + 250) } : ResizeState)
          = { recomputes := n + 1, pendingDeadline := some (t1 + 250) } := by
        simp only [handleResize, fireIfDue]
        rw [if_neg (by omega)]
      simp only [List.foldl_cons, hstep]
      obtain ⟨tl, htl⟩ := ih t1 (n + 1) hchain2
      refine ⟨tl, ?_⟩
      rw [htl]
      simp only [List.length_cons]
      congr 1
      omega

theorem creations_flatten (data : List (String × List Model)) :
    (buildEntries data).map BuildEntry.m =
      ((data.filter (fun p => (categoryConfigs p.1).isSome)).map Prod.snd).flatten := by
  induction data with
  | nil => rfl
  | cons p rest ih =>
      cases hc : categoryConfigs p.1 with
      | none => simp [buildEntries, List.filter, hc, ih]
      | some cfg =>
          simp only [buildEntries, hc, List.filter, List.map_append, List.map_map, ih]
          have hid : (BuildEntry.m ∘ fun m => (⟨p.1, cfg, m⟩ : BuildEntry)) = id := rfl
          simp [hid]

theorem mapGet_filterByCategory (cats : List String) (v : Viz) (c : String) :
    mapGet c (filterByCategory cats v).constellations =
      (mapGet c v.constellations).map
        (fun cl => { cl with visible := cats.contains c }) := by
  show mapGet c (v.constellations.map _) = _
  induction v.constellations with
  | nil => rfl
  | cons q qs ih =>
      obtain ⟨c2, cl2⟩ := q
      simp only [List.map_cons]
      by_cases hc2 : c2 = c
      · subst hc2
        simp only [mapGet, if_pos rfl, ite_true, if_true, Option.map_some']
      · simp only [mapGet, if_neg hc2]
        exact ih

/-! Claim theorems. -/

/-- Claim C3 (code bug evidence): after dispose() the registries are
cleared, but the animation-frame callback armed by animate() is still
outstanding (dispose neither cancels it nor sets any flag), so the next
tick still runs the per-frame step and renders, and re-arms itself. -/
theorem c3_dispose_leaves_loop_running :
    (dispose (animate sampleViz)).stars = []
    ∧ (dispose (animate sampleViz)).constellations = []
    ∧ (dispose (animate sampleViz)).rafPending = true
    ∧ (animate (dispose (animate sampleViz))).framesRendered
        = (dispose (animate sampleViz)).framesRendered + 1
    ∧ (animate (dispose (animate sampleViz))).rafPending = true :=
  ⟨rfl, rfl, rfl, rfl, rfl⟩

/-- Claim C4 (counterexample): ten resize events delivered 5ms apart
produce eleven projection recomputations, not one — each event triggers
the direct (undebounced) listener of the visualization immediately, and
the debounced handler of main.js adds one more recomputation after the
quiescent interval. -/
theorem c4_counterexample :
    (runResizes burstTimes).recomputes = 11
    ∧ (runResizes burstTimes).recomputes ≠ 1 := by
  constructor
  · decide
  · decide

/-- Claim C4 (amended): for every nonempty burst of resize events whose
consecutive gaps stay below the 250ms debounce interval, the camera
projection parameters are recomputed exactly n+1 times for n events:
once immediately per event via the direct resize listener registered by
the visualization, plus exactly once after the quiescent interval via
the debounced handler of main.js. -/
theorem c4_amended (ts : List ℤ) (h1 : ts ≠ [])
    (h2 : gapsBelowDebounce ts = true) :
    (runResizes ts).recomputes = ts.length + 1 := by
  cases ts with
  | nil => exact absurd rfl h1
  | cons t rest =>
      have hfirst : handleResize t ({ recomputes := 0, pendingDeadline := none } : ResizeState)
          = { recomputes := 1, pendingDeadline := some (t + 250) } := by
        simp [handleResize, fireIfDue]
      obtain ⟨tl, htl⟩ := handleResize_burst rest t 1 h2
      simp only [runResizes, List.foldl_cons, hfirst, htl, List.length_cons]
      omega

/-- Witness for the amended Claim C4 at the concrete ten-event burst. -/
theorem c4_amended_witness :
    burstTimes ≠ []
    ∧ gapsBelowDebounce burstTimes = true
    ∧ (runResizes burstTimes).recomputes = burstTimes.length + 1 :=
  ⟨by decide, by decide, c4_amended burstTimes (by decide) (by decide)⟩

/-- Claim C5 (counterexample): a ModelItem of a category absent from the
static configuration table gets no SceneEntity at all — nothing is
created and its id resolves to nothing, refuting the claim as stated
for arbitrary input mappings. -/
theorem c5_counterexample :
    (build unconfiguredData).creations = []
    ∧ (build unconfiguredData).stars = []
    ∧ mapGet "mise-en-place" (build unconfiguredData).stars = none :=
  ⟨rfl, rfl, rfl⟩

/-- Claim C5 (amended): for every input mapping whose created item ids
are pairwise distinct (the Parser-supplied uniqueness precondition of
the specification) and every ModelItem of a category present in the
static configuration table, scene construction creates exactly one
SceneEntity for that item and registers it under the item id, so the
item is reachable by its id after build, regardless of category size. -/
theorem c5_amended (data : List (String × List Model)) (cat : String)
    (models : List Model) (m : Model) (cfg : CatConfig)
    (hmem : (cat, models) ∈ data)
    (hcfg : categoryConfigs cat = some cfg)
    (hm : m ∈ models)
    (hids : ((build data).creations.map Model.id).Nodup) :
    (build data).creations.filter (fun x => x.id == m.id) = [m]
    ∧ mapGet m.id (build data).stars = some (mkStar m cat cfg) := by
  have hcre := build_creations data
  have hmemE : (⟨cat, cfg, m⟩ : BuildEntry) ∈ buildEntries data :=
    mem_buildEntries data cat models cfg m hmem hcfg hm
  have hids2 : ((buildEntries data).map (fun e => e.m.id)).Nodup := by
    have hmm : (buildEntries data).map (fun e => e.m.id)
        = (build data).creations.map Model.id := by
      rw [hcre, List.map_map]
      rfl
    rw [hmm]
    exact hids
  constructor
  · rw [hcre]
    apply filter_id_eq_singleton
    · exact List.mem_map_of_mem BuildEntry.m hmemE
    · rw [← hcre]
      exact hids
  · rw [build_stars, mapGet_foldl_starStep]
    have hrev : (buildEntries data).reverse.find? (fun e => e.m.id == m.id)
        = some ⟨cat, cfg, m⟩ :=
      find?_eq_some_of_nodup_ids (buildEntries data).reverse ⟨cat, cfg, m⟩
        (by rw [List.map_reverse]; exact List.nodup_reverse.mpr hids2)
        (List.mem_reverse.mpr hmemE)
    rw [hrev]

/-- Witness for the amended Claim C5 at the sample data and the
Thinking item. -/
theorem c5_amended_witness :
    (("Thinking", [mTru]) ∈ sampleData
      ∧ categoryConfigs "Thinking" = some ⟨0x3498db, 0, -30, 15⟩
      ∧ mTru ∈ [mTru]
      ∧ ((build sampleData).creations.map Model.id).Nodup)
    ∧ ((build sampleData).creations.filter (fun x => x.id == mTru.id) = [mTru]
      ∧ mapGet mTru.id (build sampleData).stars
          = some (mkStar mTru "Thinking" ⟨0x3498db, 0, -30, 15⟩)) :=
  ⟨⟨by decide, by decide, by decide, by decide⟩,
    c5_amended sampleData "Thinking" [mTru] mTru ⟨0x3498db, 0, -30, 15⟩
      (by decide) (by decide) (by decide) (by decide)⟩

/-- Claim C8: the camera distance along the view axis starts at 50,
stays within [20,100] under every sequence of wheel-zoom inputs of any
cumulative magnitude (each adjustment saturates at the clamp bounds),
and camera reset restores 50, inside the interval. -/
theorem c8_camera_distance_clamped (data : List (String × List Model)) (ops : List CamOp) :
    (build data).cameraZ = 50
    ∧ 20 ≤ (applyCamOps ops (build data)).cameraZ
    ∧ (applyCamOps ops (build data)).cameraZ ≤ 100
    ∧ (resetCamera (applyCamOps ops (build data))).cameraZ = 50 := by
  have h50 := build_cameraZ data
  have hb := camOps_bounds ops (build data) (by rw [h50]; norm_num) (by rw [h50]; norm_num)
  exact ⟨h50, hb.1, hb.2, rfl⟩

/-- Claim C9: scene construction creates exactly one Cluster per
category present in both the input data and the static configuration
table (so the number of Clusters is the number of such categories); a
category present in the data but missing from the table yields no
cluster and none of its items are created, with no error (construction
is total). -/
theorem c9_clusters_match_configured_categories (data : List (String × List Model))
    (hk : (data.map Prod.fst).Nodup) :
    (build data).constellations.length
        = (data.filter (fun p => (categoryConfigs p.1).isSome)).length
    ∧ (∀ p ∈ data, categoryConfigs p.1 = none →
        mapGet p.1 (build data).constellations = none)
    ∧ (build data).creations
        = ((data.filter (fun p => (categoryConfigs p.1).isSome)).map Prod.snd).flatten := by
  have hchar : (build data).constellations
      = (catEntries data).map (fun q => (q.1, mkCluster q.2)) := by
    rw [build_constellations, foldl_clusterStep_nodup]
    · simp
    · intro q hq
      simp
    · exact ((catEntries_keys_sublist data).nodup) hk
  refine ⟨?_, ?_, ?_⟩
  · rw [hchar, List.length_map, catEntries_length]
  · intro p hp hnone
    rw [build_constellations, mapGet_foldl_clusterStep_of_not_mem]
    · rfl
    · intro hmem
      obtain ⟨q, hq, hq1⟩ := List.mem_map.mp hmem
      have hsome := catEntries_configured data q hq
      rw [hq1, hnone] at hsome
      cases hsome
  · rw [build_creations, creations_flatten]

/-- Witness for Claim C9 at data mixing configured categories and an
unconfigured one. -/
theorem c9_witness :
    (mixedData.map Prod.fst).Nodup
    ∧ (build mixedData).constellations.length = 2
    ∧ mapGet "Cooking" (build mixedData).constellations = none
    ∧ (build mixedData).creations = [mOpp, mCre, mTru] := by
  refine ⟨by decide, ?_, ?_, ?_⟩
  · rw [(c9_clusters_match_configured_categories mixedData (by decide)).1]
    decide
  · exact (c9_clusters_match_configured_categories mixedData (by decide)).2.1
      ("Cooking", [mMise]) (by decide) (by decide)
  · rw [(c9_clusters_match_configured_categories mixedData (by decide)).2.2]
    decide

/-- Claim C10: scene construction creates one SceneEntity per traversed
ModelItem even when ids collide (the creation log keeps every item),
while the id registry resolves each id to the entity of the last item
with that id in traversal order, so the earlier entity is unreachable
by id; such collisions are possible because generateId lowercases,
strips and truncates names (for example the distinct names of the two
duplicate sample models both map to the id trust, and the registry of
the built duplicate scene holds only the later model). -/
theorem c10_registry_last_wins (data : List (String × List Model)) (id : String) :
    (build data).creations = (buildEntries data).map BuildEntry.m
    ∧ mapGet id (build data).stars
        = ((buildEntries data).reverse.find? (fun e => e.m.id == id)).map
            (fun e => mkStar e.m e.cat e.cfg)
    ∧ (build dupData).creations = [mDup1, mDup2]
    ∧ mDup1.name ≠ mDup2.name
    ∧ generateId mDup1.name = generateId mDup2.name
    ∧ mapGet "trust" (build dupData).stars
        = some (mkStar mDup2 "Thinking" ⟨0x3498db, 0, -30, 15⟩) := by
  refine ⟨build_creations data, ?_, by decide, by decide, by decide, by rfl⟩
  rw [build_stars, mapGet_foldl_starStep]
  cases (buildEntries data).reverse.find? (fun e => e.m.id == id) <;> rfl

/-- Claim C1 (counterexample): a gesture that hovers at (110,100),
presses, drags 10px to (120,100) — exceeding the roughly 5px threshold
the specification describes — and releases over the sample star is
followed by the click the browser dispatches; the handler runs the pick
unconditionally, so the entity IS selected and a starSelected event IS
emitted, refuting the claim. -/
theorem c1_counterexample :
    (processEvents sampleViz dragGesture).events = [mOpp]
    ∧ (processEvents sampleViz dragGesture).selectedStar = some "opportunity-cost" :=
  ⟨rfl, rfl⟩

/-- Claim C1 (amended): the code implements no tap/drag discrimination —
the cumulative displacement of a pointer gesture has no influence on
selection. After any sequence of down/move/up events, the click
dispatched at release produces exactly the selection outcome, event log
and star registry that the click alone would produce on the original
state: if the release position hits a visible pickable entity it is
selected and an entity-selected event is emitted, regardless of
displacement. -/
theorem c1_click_ignores_displacement (v : Viz) (path : List PtrEvent)
    (hits : List SceneNode) (hpath : path.all PtrEvent.isMotion = true) :
    (processEvents v (path ++ [PtrEvent.click hits])).selectedStar
        = (onMouseClick v hits).selectedStar
    ∧ (processEvents v (path ++ [PtrEvent.click hits])).events
        = (onMouseClick v hits).events
    ∧ (processEvents v (path ++ [PtrEvent.click hits])).stars
        = (onMouseClick v hits).stars := by
  rw [processEvents_append]
  have hp := motion_preserves path hpath v
  have hc := onMouseClick_congr (processEvents v path) v hits hp.1 hp.2.1 hp.2.2.1 hp.2.2.2
  exact ⟨hc.2.1, hc.2.2, hc.1⟩

/-- Witness for the amended Claim C1 at the concrete drag gesture. -/
theorem c1_amended_witness :
    ([PtrEvent.move 110 100, PtrEvent.down, PtrEvent.move 120 100,
        PtrEvent.up].all PtrEvent.isMotion = true)
    ∧ ((processEvents sampleViz ([PtrEvent.move 110 100, PtrEvent.down, PtrEvent.move 120 100,
          PtrEvent.up] ++ [PtrEvent.click [SceneNode.glowN "opportunity-cost"]])).selectedStar
        = (onMouseClick sampleViz [SceneNode.glowN "opportunity-cost"]).selectedStar
      ∧ (processEvents sampleViz ([PtrEvent.move 110 100, PtrEvent.down, PtrEvent.move 120 100,
          PtrEvent.up] ++ [PtrEvent.click [SceneNode.glowN "opportunity-cost"]])).events
        = (onMouseClick sampleViz [SceneNode.glowN "opportunity-cost"]).events
      ∧ (processEvents sampleViz ([PtrEvent.move 110 100, PtrEvent.down, PtrEvent.move 120 100,
          PtrEvent.up] ++ [PtrEvent.click [SceneNode.glowN "opportunity-cost"]])).stars
        = (onMouseClick sampleViz [SceneNode.glowN "opportunity-cost"]).stars) :=
  ⟨by decide,
    c1_click_ignores_displacement sampleViz
      [PtrEvent.move 110 100, PtrEvent.down, PtrEvent.move 120 100, PtrEvent.up]
      [SceneNode.glowN "opportunity-cost"] (by decide)⟩

/-- Claim C2: a pick selects nothing — and the state, in particular the
event log, is completely unchanged — whenever no intersected node has a
ModelItem-bearing ancestor, or whenever the entity resolved from the
nearest hit sits in a cluster whose visibility flag is false; and after
filterByCategory, any click either changes nothing or selects an entity
whose category is in the visible set, so no entity of an excluded
category can ever be selected by picking. -/
theorem c2_pick_requires_visible_entity :
    (∀ (v : Viz) (hits : List SceneNode),
        hits.all (fun n => !(hasModelAncestor v n)) = true →
        onMouseClick v hits = v)
    ∧ (∀ (v : Viz) (h : SceneNode) (rest : List SceneNode) (id : String)
          (st : Star) (cl : Cluster),
        walkUp v 4 h = SceneNode.starN id →
        mapGet id v.stars = some st →
        mapGet st.parentCategory v.constellations = some cl →
        cl.visible = false →
        onMouseClick v (h :: rest) = v)
    ∧ (∀ (v : Viz) (cats : List String) (hits : List SceneNode),
        onMouseClick (filterByCategory cats v) hits = filterByCategory cats v
        ∨ ∃ id st, mapGet id (filterByCategory cats v).stars = some st
            ∧ cats.contains st.parentCategory = true
            ∧ onMouseClick (filterByCategory cats v) hits
                = selectStar (filterByCategory cats v) id) := by
  refine ⟨?_, ?_, ?_⟩
  · intro v hits hall
    cases hits with
    | nil => rfl
    | cons h rest =>
        have hh : hasModelAncestor v h = false := by
          have hx := List.all_eq_true.mp hall h (List.mem_cons_self h rest)
          cases hma : hasModelAncestor v h
          · rfl
          · rw [hma] at hx
            cases hx
        simp only [onMouseClick]
        cases hw : walkUp v 4 h <;> dsimp only
        case starN id =>
          cases hm : mapGet id v.stars <;> dsimp only
          case some st =>
            cases hcond : (st.model.name != ""
                && nodeVisible v (SceneNode.clusterN st.parentCategory))
            · simp
            · exfalso
              have hname : st.model.name ≠ "" :=
                bne_iff_ne.mp ((Bool.and_eq_true _ _).mp hcond).1
              have hnn : (nodeName v (SceneNode.starN id)).isSome = true := by
                simp [nodeName, hm, hname]
              have hmem := walkUp_mem_selfAndAncestors v 4 h
              rw [hw] at hmem
              have hma : hasModelAncestor v h = true := by
                unfold hasModelAncestor
                rw [List.any_eq_true]
                exact ⟨SceneNode.starN id, hmem, hnn⟩
              rw [hma] at hh
              cases hh
  · intro v h rest id st cl hw hm hcl hvis
    have hvisb : nodeVisible v (SceneNode.clusterN st.parentCategory) = false := by
      simp [nodeVisible, hcl, hvis]
    simp only [onMouseClick, hw, hm, hvisb, Bool.and_false]
    simp
  · intro v cats hits
    cases hits with
    | nil => exact Or.inl rfl
    | cons h rest =>
        simp only [onMouseClick]
        cases hw : walkUp (filterByCategory cats v) 4 h <;> dsimp only
        case starN id =>
          cases hm : mapGet id (filterByCategory cats v).stars <;> dsimp only
          case none => exact Or.inl rfl
          case some st =>
            cases hcond : (st.model.name != "" && nodeVisible (filterByCategory cats v)
                (SceneNode.clusterN st.parentCategory))
            · left
              simp
            · right
              refine ⟨id, st, hm, ?_, by simp⟩
              have hvis := ((Bool.and_eq_true _ _).mp hcond).2
              simp only [nodeVisible] at hvis
              rw [mapGet_filterByCategory] at hvis
              cases hvo : mapGet st.parentCategory v.constellations with
              | none =>
                  rw [hvo] at hvis
                  cases hvis
              | some cl0 =>
                  rw [hvo] at hvis
                  exact hvis
        case root => exact Or.inl rfl
        case lights => exact Or.inl rfl
        case starfield => exact Or.inl rfl
        case clusterN c => exact Or.inl rfl
        case glowN id2 => exact Or.inl rfl

/-- Witness for Claim C2: concrete instances of all three parts — a hit
set with no entity-bearing ancestor selects nothing; a glow hit whose
star sits in the filtered-out Economics cluster selects nothing; and
the filtered pick dichotomy at a concrete click. -/
theorem c2_witness :
    (([SceneNode.starfield].all (fun n => !(hasModelAncestor sampleViz n)) = true)
      ∧ onMouseClick sampleViz [SceneNode.starfield] = sampleViz)
    ∧ (walkUp filteredSample 4 (SceneNode.glowN "opportunity-cost")
          = SceneNode.starN "opportunity-cost"
      ∧ mapGet "opportunity-cost" filteredSample.stars = some wStar
      ∧ mapGet wStar.parentCategory filteredSample.constellations = some wCluster
      ∧ wCluster.visible = false
      ∧ onMouseClick filteredSample [SceneNode.glowN "opportunity-cost"] = filteredSample)
    ∧ (onMouseClick filteredSample [SceneNode.starN "opportunity-cost"] = filteredSample
        ∨ ∃ id st, mapGet id filteredSample.stars = some st
            ∧ ["Thinking"].contains st.parentCategory = true
            ∧ onMouseClick filteredSample [SceneNode.starN "opportunity-cost"]
                = selectStar filteredSample id) :=
  ⟨⟨by decide, c2_pick_requires_visible_entity.1 sampleViz [SceneNode.starfield] (by decide)⟩,
    ⟨by rfl, by rfl, by rfl, by rfl,
      c2_pick_requires_visible_entity.2.1 filteredSample (SceneNode.glowN "opportunity-cost")
        [] "opportunity-cost" wStar wCluster (by rfl) (by rfl) (by rfl) (by rfl)⟩,
    c2_pick_requires_visible_entity.2.2 filteredSample ["Thinking"]
      [SceneNode.starN "opportunity-cost"]⟩

/-- Claim C6: setHighlighted fully overwrites prior highlight state —
applying it with set S1 and then set S2 yields exactly the state of
applying it with S2 alone, and in that state every registered entity
whose id is in S2 carries emissive intensity 0.8 and scale 1.3 while
every other registered entity carries the 0.3 and 1 baselines. -/
theorem c6_highlight_overwrite (v : Viz) (ids1 ids2 : List String) :
    highlightSearchResults ids2 (highlightSearchResults ids1 v) = highlightSearchResults ids2 v
    ∧ (∀ id st,
        mapGet id (highlightSearchResults ids2 (highlightSearchResults ids1 v)).stars
          = some st →
        (ids2.contains id = true → st.emissiveIntensity = 0.8 ∧ st.scale = 1.3)
        ∧ (ids2.contains id = false → st.emissiveIntensity = 0.3 ∧ st.scale = 1)) := by
  refine ⟨highlight_overwrites ids1 ids2 v, ?_⟩
  intro id st hget
  rw [highlight_overwrites ids1 ids2 v, highlightSearchResults_stars,
    mapGet_map_highlightFun] at hget
  cases hvo : mapGet id v.stars with
  | none =>
      rw [hvo] at hget
      cases hget
  | some st0 =>
      rw [hvo] at hget
      cases hc : ids2.contains id with
      | true =>
          rw [hc] at hget
          simp only [Option.map_some', Option.some.injEq] at hget
          refine ⟨fun _ => ?_, fun hfalse => absurd hfalse (by decide)⟩
          rw [← hget]
          exact ⟨rfl, rfl⟩
      | false =>
          rw [hc] at hget
          simp only [Option.map_some', Option.some.injEq] at hget
          refine ⟨fun htrue => absurd htrue (by decide), fun _ => ?_⟩
          rw [← hget]
          exact ⟨rfl, rfl⟩

/-- Witness for Claim C6: highlighting the two Economics ids and then
only the Thinking id leaves exactly the state of highlighting the
Thinking id alone, with that star at the highlighted levels. -/
theorem c6_witness :
    (highlightSearchResults ["trust"]
        (highlightSearchResults ["opportunity-cost", "creative-destruction"] sampleViz)
      = highlightSearchResults ["trust"] sampleViz)
    ∧ hlStar.emissiveIntensity = 0.8 ∧ hlStar.scale = 1.3 :=
  ⟨(c6_highlight_overwrite sampleViz ["opportunity-cost", "creative-destruction"] ["trust"]).1,
    ((c6_highlight_overwrite sampleViz ["opportunity-cost", "creative-destruction"]
        ["trust"]).2 "trust" hlStar (by rfl)).1 (by decide)⟩

/-- Claim C7: selecting A and then a different B leaves A at baseline
scale and B at 1.5x with B recorded as selected, each select appending
an entity-selected event carrying the underlying ModelItem; selecting A
twice is idempotent on scale (A stays at 1.5x) while the event is
re-emitted. -/
theorem c7_selection_exclusive_idempotent (v : Viz) (a b : String) (sa sb : Star)
    (hab : a ≠ b) (ha : mapGet a v.stars = some sa) (hb : mapGet b v.stars = some sb) :
    (mapGet a (selectStar (selectStar v a) b).stars = some { sa with scale := 1 }
      ∧ mapGet b (selectStar (selectStar v a) b).stars = some { sb with scale := 1.5 }
      ∧ (selectStar (selectStar v a) b).selectedStar = some b
      ∧ (selectStar (selectStar v a) b).events = v.events ++ [sa.model, sb.model])
    ∧ (mapGet a (selectStar (selectStar v a) a).stars = some { sa with scale := 1.5 }
      ∧ (selectStar (selectStar v a) a).selectedStar = some a
      ∧ (selectStar (selectStar v a) a).events = v.events ++ [sa.model, sa.model]) := by
  obtain ⟨hsel1, hget1, hev1, hother1, hcon1⟩ := selectStar_spec v a sa ha
  constructor
  · have hbv1 := hother1 b (Ne.symm hab)
    cases hvb : v.selectedStar with
    | some p =>
        by_cases hpb : p = b
        · rw [hvb, hpb, if_pos rfl, hb] at hbv1
          obtain ⟨hsel2, hget2, hev2, hother2, hcon2⟩ :=
            selectStar_spec (selectStar v a) b { sb with scale := 1 } hbv1
          refine ⟨?_, ?_, hsel2, ?_⟩
          · have hav2 := hother2 a hab
            rw [hsel1, if_pos rfl, hget1] at hav2
            rw [hav2]
            rfl
          · rw [hget2]
          · rw [hev2, hev1, List.append_assoc]
            rfl
        · rw [hvb, if_neg (by simp [hpb]), hb] at hbv1
          obtain ⟨hsel2, hget2, hev2, hother2, hcon2⟩ :=
            selectStar_spec (selectStar v a) b sb hbv1
          refine ⟨?_, hget2, hsel2, ?_⟩
          · have hav2 := hother2 a hab
            rw [hsel1, if_pos rfl, hget1] at hav2
            rw [hav2]
            rfl
          · rw [hev2, hev1, List.append_assoc]
            rfl
    | none =>
        rw [hvb] at hbv1
        rw [if_neg (by simp)] at hbv1
        rw [hb] at hbv1
        obtain ⟨hsel2, hget2, hev2, hother2, hcon2⟩ :=
          selectStar_spec (selectStar v a) b sb hbv1
        refine ⟨?_, hget2, hsel2, ?_⟩
        · have hav2 := hother2 a hab
          rw [hsel1, if_pos rfl, hget1] at hav2
          rw [hav2]
          rfl
        · rw [hev2, hev1, List.append_assoc]
          rfl
  · obtain ⟨hsel2, hget2, hev2, hother2, hcon2⟩ :=
      selectStar_spec (selectStar v a) a { sa with scale := 1.5 } hget1
    refine ⟨?_, hsel2, ?_⟩
    · rw [hget2]
    · rw [hev2, hev1, List.append_assoc]
      rfl

/-- Witness for Claim C7 at the two sample stars. -/
theorem c7_witness :
    ("opportunity-cost" ≠ "trust"
      ∧ mapGet "opportunity-cost" sampleViz.stars = some wStar
      ∧ mapGet "trust" sampleViz.stars
          = some (mkStar mTru "Thinking" ⟨0x3498db, 0, -30, 15⟩))
    ∧ ((selectStar (selectStar sampleViz "opportunity-cost") "trust").selectedStar
          = some "trust"
      ∧ (selectStar (selectStar sampleViz "opportunity-cost")
          "opportunity-cost").selectedStar = some "opportunity-cost") :=
  ⟨⟨by decide, by rfl, by rfl⟩,
    ⟨((c7_selection_exclusive_idempotent sampleViz "opportunity-cost" "trust" wStar
        (mkStar mTru "Thinking" ⟨0x3498db, 0, -30, 15⟩) (by decide) (by rfl)
        (by rfl)).1).2.2.1,
      ((c7_selection_exclusive_idempotent sampleViz "opportunity-cost" "trust" wStar
        (mkStar mTru "Thinking" ⟨0x3498db, 0, -30, 15⟩) (by decide) (by rfl)
        (by rfl)).2).2.1⟩⟩

end Constellation
